import Mathlib

/-
  Shallow embedding of src/src/ParOptProblem.h: the problem-definition
  contract of the ParOpt parallel optimizer.

  The class `ParOptProblem` stores an MPI communicator and four integer
  problem sizes (nvars, ncon, nwcon, nwblock).  The communicator type is
  opaque, so we keep it as a type parameter `Comm`.  The C++ sizes are
  plain `int`s that are only ever assigned and read (no arithmetic), so
  we model them as `Int`.

  `ParOptScalar` is the real scalar type of the library; we model it by
  the exact rationals.  A `ParOptVec` is modelled by a list of scalars.
-/

abbrev ParOptScalar := ℚ

structure ParOptProblem (Comm : Type) where
  comm : Comm
  nvars : Int
  ncon : Int
  nwcon : Int
  nwblock : Int

/-- The single-argument constructor `ParOptProblem(MPI_Comm _comm)`:
stores the communicator and zero-initializes all four sizes. -/
def mkProblemDefault {Comm : Type} (c : Comm) : ParOptProblem Comm :=
  { comm := c, nvars := 0, ncon := 0, nwcon := 0, nwblock := 0 }

/-- The five-argument constructor `ParOptProblem(comm, nvars, ncon, nwcon, nwblock)`. -/
def mkProblemSized {Comm : Type} (c : Comm) (nv nc nw nb : Int) : ParOptProblem Comm :=
  { comm := c, nvars := nv, ncon := nc, nwcon := nw, nwblock := nb }

/-- `setProblemSizes`: assigns the four size fields, leaving `comm` alone. -/
def setProblemSizes {Comm : Type} (p : ParOptProblem Comm)
    (nv nc nw nb : Int) : ParOptProblem Comm :=
  { p with nvars := nv, ncon := nc, nwcon := nw, nwblock := nb }

/-- `getProblemSizes`: each output pointer is modelled as an `Option Int`
cell (`none` = null pointer, `some v` = non-null holding `v`).  The body
`if (_nvars){ *_nvars = nvars; }` writes the field through the pointer
only when it is non-null.  The function does not modify the object, so
the state is returned unchanged alongside the four cells. -/
def getProblemSizes {Comm : Type} (p : ParOptProblem Comm)
    (pv pc pw pb : Option Int) :
    ParOptProblem Comm × Option Int × Option Int × Option Int × Option Int :=
  (p,
   match pv with
   | none => none
   | some _ => some p.nvars,
   match pc with
   | none => none
   | some _ => some p.ncon,
   match pw with
   | none => none
   | some _ => some p.nwcon,
   match pb with
   | none => none
   | some _ => some p.nwblock)

/-- `getMPIComm`: returns the stored communicator. -/
def getMPIComm {Comm : Type} (p : ParOptProblem Comm) : Comm :=
  p.comm

/-- Modelled from the spec: `ParOptBasicVec` is declared in ParOptVec.h,
which is not under src/.  The spec says the factory methods "allocate and
return a new distributed vector sized to the design-vector length /
sparse-constraint length respectively, bound to the Problem's process
group".  We record the process group, the requested local length, and a
freshly allocated (zero-initialized) value array. -/
structure ParOptBasicVec (Comm : Type) where
  comm : Comm
  size : Int
  values : List ParOptScalar

/-- Modelled from the spec: the `ParOptBasicVec(comm, n)` constructor,
allocating a fresh vector of local length `n` on group `comm`. -/
def mkBasicVec {Comm : Type} (c : Comm) (n : Int) : ParOptBasicVec Comm :=
  { comm := c, size := n, values := List.replicate n.toNat 0 }

/-- Default `createDesignVec()`: `return new ParOptBasicVec(comm, nvars);`. -/
def createDesignVec {Comm : Type} (p : ParOptProblem Comm) : ParOptBasicVec Comm :=
  mkBasicVec p.comm p.nvars

/-- Default `createConstraintVec()`: `return new ParOptBasicVec(comm, nwcon);`. -/
def createConstraintVec {Comm : Type} (p : ParOptProblem Comm) : ParOptBasicVec Comm :=
  mkBasicVec p.comm p.nwcon

/-- Default `evalHessianDiag`: the body is `return 0;`.  It reads none of
its arguments, writes nothing into the `hdiag` buffer, and returns the
success flag 0.  We thread the output buffer explicitly, so the result is
the pair (fail flag, hdiag after the call). -/
def evalHessianDiag {Comm : Type} (_p : ParOptProblem Comm)
    (_x _z _zw : List ParOptScalar) (hdiag : List ParOptScalar) :
    Int × List ParOptScalar :=
  (0, hdiag)

/-- Default `setUpHessianPrecon`: the body is `return 0;`.  It touches no
member state, so the state is returned unchanged with the flag 0. -/
def setUpHessianPrecon {Comm : Type} (p : ParOptProblem Comm)
    (_x _z _zw : List ParOptScalar) : ParOptProblem Comm × Int :=
  (p, 0)

/-- Modelled from the spec: `ParOptVec::copyValues` is declared in
ParOptVec.h, which is not under src/.  The spec for the default
preconditioner apply says it "copies `in` into `out` (identity)", so
`copyValues` replaces the contents of the destination with the source. -/
def copyValues (_dest src : List ParOptScalar) : List ParOptScalar :=
  src

/-- Default `applyHessianPrecon`: the body is
`out->copyValues(in); return 0;`.  The result is the pair
(fail flag, out after the call). -/
def applyHessianPrecon {Comm : Type} (_p : ParOptProblem Comm)
    (_x _z _zw : List ParOptScalar) (inVec out : List ParOptScalar) :
    Int × List ParOptScalar :=
  (0, copyValues out inVec)

/-- Default `writeOutput`: the body is empty (`{}`).  It mutates neither
the member state nor the design vector `x`. -/
def writeOutput {Comm : Type} (p : ParOptProblem Comm)
    (_iter : Int) (x : List ParOptScalar) :
    ParOptProblem Comm × List ParOptScalar :=
  (p, x)

/-- Modelled from the spec: `addSparseJacobian`, `addSparseJacobianTranspose`
and `addSparseInnerProduct` are pure virtual in ParOptProblem.h, so no body
is under src/.  The spec defines them as accumulations:
`out += alpha * J(x) * px`, `out += alpha * transpose(J(x)) * pzw`, and
`A += alpha * J(x) * diag(cvec) * transpose(J(x))`.  The problem-dependent
quantities — the Jacobian action, its transpose action, and the flattened
block entries of the inner-product term — depend only on `x` and the second
vector argument, and are collected in this structure. -/
structure SparseOps where
  jacAction : List ParOptScalar → List ParOptScalar → List ParOptScalar
  jacTransposeAction : List ParOptScalar → List ParOptScalar → List ParOptScalar
  innerProductTerm : List ParOptScalar → List ParOptScalar → List ParOptScalar

/-- Elementwise accumulation `dest[i] += alpha * v[i]`: the common shape of
the three additive sparse operations. -/
def axpyInto (alpha : ParOptScalar) (v dest : List ParOptScalar) :
    List ParOptScalar :=
  List.zipWith (fun d a => d + alpha * a) dest v

/-- Modelled from the spec: `addSparseJacobian(alpha, x, px, out)`
accumulates `out += alpha * J(x) * px`. -/
def addSparseJacobian (S : SparseOps) (alpha : ParOptScalar)
    (x px out : List ParOptScalar) : List ParOptScalar :=
  axpyInto alpha (S.jacAction x px) out

/-- Modelled from the spec: `addSparseJacobianTranspose(alpha, x, pzw, out)`
accumulates `out += alpha * transpose(J(x)) * pzw`. -/
def addSparseJacobianTranspose (S : SparseOps) (alpha : ParOptScalar)
    (x pzw out : List ParOptScalar) : List ParOptScalar :=
  axpyInto alpha (S.jacTransposeAction x pzw) out

/-- Modelled from the spec: `addSparseInnerProduct(alpha, x, cvec, A)`
accumulates `A += alpha * J(x) * diag(cvec) * transpose(J(x))`, where `A`
is the caller-owned flattened block-matrix buffer. -/
def addSparseInnerProduct (S : SparseOps) (alpha : ParOptScalar)
    (x cvec A : List ParOptScalar) : List ParOptScalar :=
  axpyInto alpha (S.innerProductTerm x cvec) A

/-- The operations of the class that take the object, for reasoning about
arbitrary call sequences.  `setSizes` is the only member that writes any
field; the getter and the concrete default methods leave the state as the
embedding of each returns it. -/
inductive ProblemOp where
  | setSizes (nv nc nw nb : Int)
  | getSizes (pv pc pw pb : Option Int)
  | hessianDiag (x z zw hdiag : List ParOptScalar)
  | setUpPrecon (x z zw : List ParOptScalar)
  | applyPrecon (x z zw inVec out : List ParOptScalar)
  | output (iter : Int) (x : List ParOptScalar)

/-- Interpret one operation as a transformer of the member state. -/
def applyOp {Comm : Type} (p : ParOptProblem Comm) : ProblemOp → ParOptProblem Comm
  | .setSizes nv nc nw nb => setProblemSizes p nv nc nw nb
  | .getSizes pv pc pw pb => (getProblemSizes p pv pc pw pb).1
  | .hessianDiag _ _ _ _ => p
  | .setUpPrecon x z zw => (setUpHessianPrecon p x z zw).1
  | .applyPrecon _ _ _ _ _ => p
  | .output iter x => (writeOutput p iter x).1

/-- Run a sequence of operations from an initial state. -/
def runOps {Comm : Type} (p : ParOptProblem Comm) (ops : List ProblemOp) :
    ParOptProblem Comm :=
  List.foldl applyOp p ops

theorem applyOp_comm_eq {Comm : Type} (p : ParOptProblem Comm) (op : ProblemOp) :
    (applyOp p op).comm = p.comm := by
  cases op <;> rfl

theorem runOps_comm_eq {Comm : Type} (p : ParOptProblem Comm) (ops : List ProblemOp) :
    (runOps p ops).comm = p.comm := by
  induction ops generalizing p with
  | nil => rfl
  | cons op rest ih =>
      simpa [runOps, List.foldl_cons, applyOp_comm_eq] using ih (applyOp p op)

theorem axpyInto_zero (v dest : List ParOptScalar)
    (h : dest.length = v.length) : axpyInto 0 v dest = dest := by
  induction dest generalizing v with
  | nil => rfl
  | cons d ds ih =>
      cases v with
      | nil => simp at h
      | cons a as =>
          simp only [axpyInto, List.zipWith] at ih ⊢
          rw [ih as (by simpa using h)]
          ring_nf

theorem axpyInto_neg_cancel (alpha : ParOptScalar) (v dest : List ParOptScalar)
    (h : dest.length = v.length) :
    axpyInto (-alpha) v (axpyInto alpha v dest) = dest := by
  induction dest generalizing v with
  | nil => rfl
  | cons d ds ih =>
      cases v with
      | nil => simp at h
      | cons a as =>
          simp only [axpyInto, List.zipWith] at ih ⊢
          rw [ih as (by simpa using h)]
          ring_nf

theorem axpyInto_half_half (v dest : List ParOptScalar)
    (h : dest.length = v.length) :
    axpyInto (1 / 2) v (axpyInto (1 / 2) v dest) = axpyInto 1 v dest := by
  induction dest generalizing v with
  | nil => rfl
  | cons d ds ih =>
      cases v with
      | nil => simp at h
      | cons a as =>
          simp only [axpyInto, List.zipWith] at ih ⊢
          rw [ih as (by simpa using h)]
          ring_nf

/-- Claim C1: for every quadruple of integers, calling `setProblemSizes`
with those values and then `getProblemSizes` with non-null output pointers
returns exactly the values that were set, for each of the four size fields. -/
theorem setProblemSizes_getProblemSizes_roundtrip {Comm : Type}
    (p : ParOptProblem Comm) (nv nc nw nb : Int) (v0 c0 w0 b0 : Int) :
    (getProblemSizes (setProblemSizes p nv nc nw nb)
        (some v0) (some c0) (some w0) (some b0)).2 =
      (some nv, some nc, some nw, some nb) := by
  rfl

/-- Claim C2: for every input, the default `evalHessianDiag` leaves the
`hdiag` output buffer completely unchanged and returns the success flag 0. -/
theorem evalHessianDiag_default_noop {Comm : Type} (p : ParOptProblem Comm)
    (x z zw hdiag : List ParOptScalar) :
    evalHessianDiag p x z zw hdiag = (0, hdiag) := by
  rfl

/-- Claim C3: the default `setUpHessianPrecon` returns the success flag 0 and
leaves the member state unchanged, and for every vector `inVec` the default
`applyHessianPrecon` returns the success flag 0 with the output buffer equal
to `inVec` (the identity map). -/
theorem hessianPrecon_defaults {Comm : Type} (p : ParOptProblem Comm)
    (x z zw inVec out : List ParOptScalar) :
    setUpHessianPrecon p x z zw = (p, 0) ∧
    applyHessianPrecon p x z zw inVec out = (0, inVec) :=
  ⟨rfl, rfl⟩

/-- Claim C4: with buffers sized to match the accumulated term,
`addSparseJacobian`, `addSparseJacobianTranspose` and `addSparseInnerProduct`
with `alpha = 0` leave the destination buffer unchanged, and applying any
`alpha` and then `-alpha` with the same `x` and direction arguments restores
the destination exactly. -/
theorem sparse_ops_additive (S : SparseOps) (alpha : ParOptScalar)
    (x px pzw cvec out1 out2 A : List ParOptScalar)
    (h1 : out1.length = (S.jacAction x px).length)
    (h2 : out2.length = (S.jacTransposeAction x pzw).length)
    (h3 : A.length = (S.innerProductTerm x cvec).length) :
    addSparseJacobian S 0 x px out1 = out1 ∧
    addSparseJacobianTranspose S 0 x pzw out2 = out2 ∧
    addSparseInnerProduct S 0 x cvec A = A ∧
    addSparseJacobian S (-alpha) x px (addSparseJacobian S alpha x px out1) = out1 ∧
    addSparseJacobianTranspose S (-alpha) x pzw
      (addSparseJacobianTranspose S alpha x pzw out2) = out2 ∧
    addSparseInnerProduct S (-alpha) x cvec
      (addSparseInnerProduct S alpha x cvec A) = A :=
  ⟨axpyInto_zero _ _ h1, axpyInto_zero _ _ h2, axpyInto_zero _ _ h3,
   axpyInto_neg_cancel alpha _ _ h1, axpyInto_neg_cancel alpha _ _ h2,
   axpyInto_neg_cancel alpha _ _ h3⟩

/-- Concrete sparse operations used to witness claim C4: the Jacobian action,
its transpose action and the inner-product term each return the second
argument. -/
def sampleSparseOpsA : SparseOps :=
  { jacAction := fun _ p => p,
    jacTransposeAction := fun _ p => p,
    innerProductTerm := fun _ p => p }

/-- Witness for claim C4 at a concrete input. -/
theorem sparse_ops_additive_witness :
    addSparseJacobian sampleSparseOpsA 0 [1] [2] [3] = [3] ∧
    addSparseJacobianTranspose sampleSparseOpsA 0 [1] [5] [4] = [4] ∧
    addSparseInnerProduct sampleSparseOpsA 0 [1] [7] [6] = [6] ∧
    addSparseJacobian sampleSparseOpsA (-(2 : ParOptScalar)) [1] [2]
      (addSparseJacobian sampleSparseOpsA 2 [1] [2] [3]) = [3] ∧
    addSparseJacobianTranspose sampleSparseOpsA (-(2 : ParOptScalar)) [1] [5]
      (addSparseJacobianTranspose sampleSparseOpsA 2 [1] [5] [4]) = [4] ∧
    addSparseInnerProduct sampleSparseOpsA (-(2 : ParOptScalar)) [1] [7]
      (addSparseInnerProduct sampleSparseOpsA 2 [1] [7] [6]) = [6] :=
  sparse_ops_additive sampleSparseOpsA 2 [1] [2] [5] [7] [3] [4] [6] rfl rfl rfl

/-- Claim C5: the default `createDesignVec` returns a fresh vector whose
local length is `nvars` and whose process group is the problem's, and the
default `createConstraintVec` returns a fresh vector whose local length is
`nwcon` on the same process group. -/
theorem create_vec_factory_defaults {Comm : Type} (p : ParOptProblem Comm) :
    (createDesignVec p).size = p.nvars ∧
    (createDesignVec p).comm = p.comm ∧
    (createConstraintVec p).size = p.nwcon ∧
    (createConstraintVec p).comm = p.comm :=
  ⟨rfl, rfl, rfl, rfl⟩

/-- Claim C6: calling `addSparseInnerProduct` twice with `alpha = 1/2` and
identical `x`, `cvec` accumulates into `A` exactly what one call with
`alpha = 1` accumulates, for every initial contents of `A` that matches the
accumulated term in length. -/
theorem addSparseInnerProduct_half_twice (S : SparseOps)
    (x cvec A : List ParOptScalar)
    (h : A.length = (S.innerProductTerm x cvec).length) :
    addSparseInnerProduct S (1 / 2) x cvec
      (addSparseInnerProduct S (1 / 2) x cvec A) =
      addSparseInnerProduct S 1 x cvec A :=
  axpyInto_half_half _ _ h

/-- Concrete sparse operations used to witness claim C6. -/
def sampleSparseOpsB : SparseOps :=
  { jacAction := fun _ p => p,
    jacTransposeAction := fun _ p => p,
    innerProductTerm := fun _ p => p }

/-- Witness for claim C6 at a concrete input. -/
theorem addSparseInnerProduct_half_twice_witness :
    addSparseInnerProduct sampleSparseOpsB (1 / 2) [2] [3]
      (addSparseInnerProduct sampleSparseOpsB (1 / 2) [2] [3] [5]) =
      addSparseInnerProduct sampleSparseOpsB 1 [2] [3] [5] :=
  addSparseInnerProduct_half_twice sampleSparseOpsB [2] [3] [5] rfl

/-- Claim C7: the communicator is fixed at construction (either constructor)
and no sequence of member operations, `setProblemSizes` included, changes
what `getMPIComm` returns. -/
theorem getMPIComm_immutable {Comm : Type} (c : Comm) (nv nc nw nb : Int)
    (ops1 ops2 : List ProblemOp) :
    getMPIComm (runOps (mkProblemSized c nv nc nw nb) ops1) = c ∧
    getMPIComm (runOps (mkProblemDefault c) ops2) = c :=
  ⟨runOps_comm_eq _ ops1, runOps_comm_eq _ ops2⟩

/-- Claim C8: for every iteration number and design vector, the default
`writeOutput` performs no action: it mutates neither `x` nor the member
state. -/
theorem writeOutput_default_noop {Comm : Type} (p : ParOptProblem Comm)
    (iter : Int) (x : List ParOptScalar) :
    writeOutput p iter x = (p, x) := by
  rfl

/-- Claim C9: `getProblemSizes` tolerates null output pointers: it writes
the corresponding field through each non-null pointer, writes nothing
through a null pointer, returns without error, and leaves the member state
unchanged. -/
theorem getProblemSizes_null_tolerant {Comm : Type} (p : ParOptProblem Comm)
    (pv pc pw pb : Option Int) :
    getProblemSizes p pv pc pw pb =
      (p, pv.map fun _ => p.nvars, pc.map fun _ => p.ncon,
       pw.map fun _ => p.nwcon, pb.map fun _ => p.nwblock) := by
  cases pv <;> cases pc <;> cases pw <;> cases pb <;> rfl

/-- Claim C10: after the single-argument (communicator-only) constructor,
all four size fields are zero. -/
theorem mkProblemDefault_zero_sizes {Comm : Type} (c : Comm) :
    (mkProblemDefault c).nvars = 0 ∧ (mkProblemDefault c).ncon = 0 ∧
    (mkProblemDefault c).nwcon = 0 ∧ (mkProblemDefault c).nwblock = 0 :=
  ⟨rfl, rfl, rfl, rfl⟩
